import Mathlib

/-!
# Verification of the gold-eye feed/volatility pipeline

Shallow embedding of `src/gold_eye_terminal_news.py`:
text classification (`analyze_impact`, `analyze_sentiment`), publication-date
normalisation (`parse_pub_date`), feed fetching (`_fetch_feed`), link-based
dedup plus recency sort (the presentation-side `dedup` dict comprehension),
and the rolling-volatility builder (`fetch_volatility`).

Modelling conventions:
* Python strings are Lean `String`s; Python's `in` substring test is `strIn`
  below, and `str.lower()` is `String.toLower` (the texts involved are ASCII).
* `datetime` values are `PyDatetime`: a rational timestamp plus an optional
  tz offset (`some 0` = UTC, `none` = naive).
* Fallible library calls (HTTP get, `r.json()`, `ET.fromstring`,
  `dateutil.parser.parse`) are modelled as `Except`-valued inputs that the
  embedded functions consume, mirroring the source's `try`/`except` blocks.
* Market data frames are `RawFrame`: a timestamp index, named numeric
  columns over `ℚ`, and the pandas `freqstr` of the index.
* Volatility is tracked at the *squared* level over `ℚ`: the source computes
  `rolling(window).std() * window ** 0.5`; since all quantities are
  non-negative, two volatility values are equal iff their squares are, and
  the square is exactly `sampleVariance * window`, which is exact rational
  arithmetic.  Definitions carrying the suffix `Sq` are these squares.
* Line 235 of the source,
  `window = 24 if "h" in raw.index.freqstr.lower() if raw.index.freqstr else False else 5`,
  is not syntactically well-formed Python; we embed the evident intended
  reading `24 if ("h" in raw.index.freqstr.lower() if raw.index.freqstr else False) else 5`,
  i.e. window 24 when the index frequency string mentions "h", else 5.
-/

/-! ## Substring matching (Python's `in` on strings) -/

/-- `chPre n h` decides whether the char list `n` is a leading segment of `h`. -/
def chPre : List Char → List Char → Bool
  | [], _ => true
  | _ :: _, [] => false
  | a :: n, b :: h => a == b && chPre n h

/-- `strInAux n h` decides whether `n` occurs contiguously inside `h`. -/
def strInAux (n : List Char) : List Char → Bool
  | [] => chPre n []
  | c :: t => chPre n (c :: t) || strInAux n t

/-- Python's `needle in hay` on strings. -/
def strIn (needle hay : String) : Bool :=
  strInAux needle.data hay.data

/-- `Occurs needle hay`: `needle` is a contiguous substring of `hay`. -/
def Occurs (needle hay : String) : Prop :=
  ∃ pre post, hay.data = pre ++ needle.data ++ post

/-- Python's `str.lower()`, character by character (the texts involved are
basic latin, where this agrees with Python). -/
def pyLower (s : String) : String :=
  ⟨s.data.map Char.toLower⟩

/-- Python's `str.strip()`: drop whitespace from both ends. -/
def pyStrip (s : String) : String :=
  ⟨((s.data.dropWhile Char.isWhitespace).reverse.dropWhile Char.isWhitespace).reverse⟩

/-- Python's `str.endswith(suf)`. -/
def pyEndsWith (s suf : String) : Bool :=
  chPre suf.data.reverse s.data.reverse

/-! ## Keyword tables and classifiers (source lines 88-137) -/

/-- The `impact_keywords` table. -/
def impact_keywords : List (String × List String) :=
  [("gold", ["gold", "bullion", "precious metal"]),
   ("usd", ["dollar", "usd", "greenback"]),
   ("rates", ["interest rate", "rate hike", "fed", "federal reserve"]),
   ("inflation", ["inflation", "cpi", "ppi"]),
   ("jobs", ["jobs", "employment", "unemployment", "payroll"])]

/-- The `positive_words` list. -/
def positive_words : List String :=
  ["rise", "growth", "bullish", "positive", "strong"]

/-- The `negative_words` list. -/
def negative_words : List String :=
  ["fall", "decline", "bearish", "negative", "weak"]

/-- The lowered concatenation `(title + " " + description).lower()`. -/
def loweredText (title description : String) : String :=
  pyLower (title ++ " " ++ description)

/-- The `impact` list accumulated by the loop in `analyze_impact`:
category keys whose keyword list has a member occurring in the text. -/
def analyze_impact_tags (title description : String) : List String :=
  let text := loweredText title description
  impact_keywords.filterMap fun kw =>
    if kw.2.any (fun w => strIn w text) then some kw.1 else none

/-- `analyze_impact`: comma-joined matched categories, or `"general"`. -/
def analyze_impact (title description : String) : String :=
  let impact := analyze_impact_tags title description
  if impact.isEmpty then "general" else String.intercalate ", " impact

/-- `analyze_sentiment`: four-way label from positive/negative keyword hits. -/
def analyze_sentiment (title description : String) : String :=
  let text := loweredText title description
  let pos := positive_words.any fun word => strIn word text
  let neg := negative_words.any fun word => strIn word text
  if pos && !neg then "Positive"
  else if neg && !pos then "Negative"
  else if pos && neg then "Mixed"
  else "Neutral"

/-! ## Dates (source lines 107-114) -/

/-- A Python `datetime`: timestamp in seconds since the epoch plus an
optional timezone offset (`some 0` is UTC, `none` is a naive datetime). -/
structure PyDatetime where
  stamp : ℚ
  tzinfo : Option ℤ
deriving DecidableEq

/-- `parse_pub_date`: `dateutil.parser.parse` is the abstract, possibly
failing `ext`; `now` is `datetime.now(timezone.utc)`.  A naive parse gets
`tzinfo` replaced by UTC; a parse failure falls back to `now`.  The
`try`/`except Exception` wrapper makes the embedded function total. -/
def parse_pub_date (ext : String → Except String PyDatetime) (now : PyDatetime)
    (pub_date_str : String) : PyDatetime :=
  match ext pub_date_str with
  | .error _ => now
  | .ok dt =>
    match dt.tzinfo with
    | none => { dt with tzinfo := some 0 }
    | some _ => dt

/-! ## News items and the feed fetcher (source lines 140-186) -/

/-- One news record as built by `_fetch_feed` (a Python dict in the source).
`link := none` models a record carrying no `"link"` key at all. -/
structure NewsItem where
  feed : String
  title : String
  description : String
  link : Option String
  pub : PyDatetime
  impact : String
  sentiment : String
deriving DecidableEq

/-- `properties` of a USGS GeoJSON feature: each field read with
`props.get(key, default)`. `time` is in epoch milliseconds. -/
structure UsgsProps where
  title : Option String
  place : Option String
  url : Option String
  time : Option ℚ
deriving DecidableEq

/-- One element of the `features` array; `props := none` models a feature
without a `"properties"` key (`f.get("properties", {})`). -/
structure UsgsFeature where
  props : Option UsgsProps
deriving DecidableEq

/-- A parsed JSON document: `features := none` models a document without a
`"features"` key. -/
structure UsgsData where
  features : Option (List UsgsFeature)
deriving DecidableEq

/-- One RSS `item` element; each field is `findtext` output, `none` when
the child element is absent. -/
structure RssXmlItem where
  title : Option String
  description : Option String
  link : Option String
  pubDate : Option String
deriving DecidableEq

/-- The HTTP response as `_fetch_feed` consumes it: status code, declared
content type, and the (fallible) outcomes of `r.json()` and of XML parsing
plus `root.findall(".//item")`. -/
structure HttpResponse where
  status : ℕ
  contentType : String
  jsonData : Except String UsgsData
  xmlItems : Except String (List RssXmlItem)

/-- The empty-dict default for `f.get("properties", {})`. -/
def emptyProps : UsgsProps := ⟨none, none, none, none⟩

/-- Mapping of one GeoJSON feature to a news record (source lines 151-161):
impact and sentiment are the fixed sentinels, never the classifiers. -/
def featureToItem (feed_name : String) (f : UsgsFeature) : NewsItem :=
  let props := f.props.getD emptyProps
  { feed := feed_name
    title := props.title.getD ""
    description := props.place.getD ""
    link := some (props.url.getD "")
    pub := { stamp := props.time.getD 0 / 1000, tzinfo := some 0 }
    impact := "general"
    sentiment := "Neutral" }

/-- Mapping of one RSS `item` element to a news record (source lines
167-181), classifying title and description with the keyword engines. -/
def rssToItem (ext : String → Except String PyDatetime) (now : PyDatetime)
    (feed_name : String) (it : RssXmlItem) : NewsItem :=
  let title := pyStrip (it.title.getD "")
  let description := pyStrip (it.description.getD "")
  let link := pyStrip (it.link.getD "")
  let pub := match it.pubDate with
    | none => now
    | some s => if s = "" then now else parse_pub_date ext now s
  { feed := feed_name, title := title, description := description
    link := some link, pub := pub
    impact := analyze_impact title description
    sentiment := analyze_sentiment title description }

/-- The JSON-branch test of `_fetch_feed` (source line 147). -/
def isJsonFeed (r : HttpResponse) (url : String) : Bool :=
  strIn "json" (pyLower r.contentType) || pyEndsWith url ".json" || pyEndsWith url ".geojson"

/-- The body of the `try` block of `_fetch_feed`: `resp` is the outcome of
`requests.get`; `raise_for_status` throws on status ≥ 400. -/
def fetch_feed_attempt (ext : String → Except String PyDatetime) (now : PyDatetime)
    (feed_name url : String) (resp : Except String HttpResponse) :
    Except String (List NewsItem) :=
  match resp with
  | .error e => .error e
  | .ok r =>
    if 400 ≤ r.status then .error "HTTPError"
    else if isJsonFeed r url then
      match r.jsonData with
      | .error e => .error e
      | .ok data =>
        match data.features with
        | some fs => .ok (fs.map (featureToItem feed_name))
        | none => .ok []
    else
      match r.xmlItems with
      | .error e => .error e
      | .ok its => .ok (its.map (rssToItem ext now feed_name))

/-- `_fetch_feed`: the whole body is wrapped in `try`/`except Exception`,
so every failure degrades to the empty list. -/
def fetch_feed (ext : String → Except String PyDatetime) (now : PyDatetime)
    (feed_name url : String) (resp : Except String HttpResponse) : List NewsItem :=
  match fetch_feed_attempt ext now feed_name url resp with
  | .ok items => items
  | .error _ => []

/-! ## Link dedup and recency sort (source lines 315-317) -/

/-- Python dict assignment `m[k] = v`: overwrite in place when the key is
present (insertion order kept), else append the new binding. -/
def dictInsert (m : List (String × NewsItem)) (k : String) (v : NewsItem) :
    List (String × NewsItem) :=
  if m.any (fun p => p.1 == k) then
    m.map fun p => if p.1 == k then (k, v) else p
  else m ++ [(k, v)]

/-- Truthiness of `item.get("link")`: `none` (no key) and `""` are falsy. -/
def linkKey (it : NewsItem) : Option String :=
  match it.link with
  | none => none
  | some l => if l = "" then none else some l

/-- The dict comprehension `{item["link"]: item for item in all_news if
item.get("link")}` as an insertion-ordered association list. -/
def dedupDict (items : List NewsItem) : List (String × NewsItem) :=
  items.foldl
    (fun m it =>
      match linkKey it with
      | some l => dictInsert m l it
      | none => m)
    []

/-- `list(dedup.values())`. -/
def dedupValues (items : List NewsItem) : List NewsItem :=
  (dedupDict items).map Prod.snd

/-- The comparison behind `all_news.sort(key=lambda x: x["pub"], reverse=True)`. -/
def newsLe (a b : NewsItem) : Bool :=
  decide (b.pub.stamp ≤ a.pub.stamp)

/-- The deduplicated news list sorted descending by publication time. -/
def finalNews (items : List NewsItem) : List NewsItem :=
  (dedupValues items).mergeSort newsLe

/-- Invariant of the dedup dict: keys are distinct, and every stored item
carries its own key as a non-empty link. -/
def GoodDict (m : List (String × NewsItem)) : Prop :=
  (m.map Prod.fst).Nodup ∧ ∀ p ∈ m, p.2.link = some p.1 ∧ p.1 ≠ ""

/-! ## Volatility builder (source lines 210-242) -/

/-- A downloaded price frame: integer timestamps as the index, named
numeric columns, and the pandas `freqstr` of the index (`none` when the
index carries no frequency, the usual case for provider data). -/
structure RawFrame where
  index : List ℤ
  cols : List (String × List ℚ)
  freqstr : Option String
deriving DecidableEq

/-- pandas `DataFrame.empty`: true when either axis has length zero. -/
def isEmptyFrame (r : RawFrame) : Bool :=
  r.index.isEmpty || r.cols.isEmpty

/-- The `raw is None or raw.empty` test. -/
def noneOrEmpty : Option RawFrame → Bool
  | none => true
  | some r => isEmptyFrame r

/-- Well-formedness of a frame: at least one column, and every column as
long as the index (pandas guarantees both for a non-degenerate frame). -/
def WF (r : RawFrame) : Prop :=
  r.cols ≠ [] ∧ ∀ c ∈ r.cols, c.2.length = r.index.length

/-- `raw["Close"] if "Close" in raw.columns else raw.iloc[:, 0]`
(source line 226): the close column when present, else the first column. -/
def priceColumn (r : RawFrame) : List ℚ :=
  match r.cols.find? (fun c => c.1 == "Close") with
  | some c => c.2
  | none =>
    match r.cols with
    | [] => []
    | c :: _ => c.2

/-- `df.sort_index()` over the chosen price column: pair prices with their
timestamps, sort ascending by timestamp, keep the prices. -/
def sortedClose (r : RawFrame) : List ℚ :=
  ((r.index.zip (priceColumn r)).mergeSort fun a b => decide (a.1 ≤ b.1)).map Prod.snd

/-- `df["Close"].pct_change()` without its leading NaN:
`returns[i] = close[i+1]/close[i] - 1`. -/
def pct_change (close : List ℚ) : List ℚ :=
  (close.zip close.tail).map fun p => p.2 / p.1 - 1

/-- All length-`w` contiguous windows of `xs`, left to right: the windows
on which `rolling(window=w)` (with its default `min_periods`) produces a
value once the leading NaN of `pct_change` is accounted for. -/
def windowsOf (w : ℕ) (xs : List ℚ) : List (List ℚ) :=
  (List.range (xs.length + 1 - w)).map fun i => (xs.drop i).take w

/-- Arithmetic mean of a list of rationals. -/
def listMean (xs : List ℚ) : ℚ :=
  xs.sum / xs.length

/-- Sample variance (pandas `std()` default `ddof=1`, squared); 0 in the
degenerate cases where pandas would give NaN. -/
def sampleVariance (xs : List ℚ) : ℚ :=
  if xs.length ≤ 1 then 0
  else ((xs.map fun x => (x - listMean xs) ^ 2).sum) / (xs.length - 1)

/-- The source's hourly test on the chosen frame, in the evident intended
reading of source line 235: `"h" in raw.index.freqstr.lower()` when a
frequency string exists, else false. -/
def hourlyFreq (r : RawFrame) : Bool :=
  match r.freqstr with
  | some f => strIn "h" (pyLower f)
  | none => false

/-- The rolling window the source selects: 24 for hourly-looking data,
else 5. -/
def volWindow (r : RawFrame) : ℕ :=
  if hourlyFreq r then 24 else 5

/-- Squares of the volatility points the source computes on one frame:
`rolling(window).std() * window ** 0.5`, squared, after `dropna`.  Empty
when the frame has fewer than 3 rows (source line 231). -/
def volPointsSq (r : RawFrame) : List ℚ :=
  let close := sortedClose r
  if close.length < 3 then []
  else (windowsOf (volWindow r) (pct_change close)).map
    fun ws => sampleVariance ws * (volWindow r : ℚ)

/-- `fetch_volatility` (squared volatility column): `raw1h` and `raw1d`
are the outcomes of the hourly and the fallback daily download. -/
def fetch_volatilitySq (raw1h raw1d : Option RawFrame) : List ℚ :=
  match (if noneOrEmpty raw1h then raw1d else raw1h) with
  | none => []
  | some r => if isEmptyFrame r then [] else volPointsSq r

/-- Modelled from the spec: the spec's annualization factor, squared —
√252 for daily bars and √(252·24) for hourly bars. -/
def annualizationFactorSq (r : RawFrame) : ℚ :=
  if hourlyFreq r then 252 * 24 else 252

/-- Modelled from the spec: volatility points (squared) with the spec's
annualization factor in place of the source's `window ** 0.5`. -/
def volPointsSpecSq (r : RawFrame) : List ℚ :=
  let close := sortedClose r
  if close.length < 3 then []
  else (windowsOf (volWindow r) (pct_change close)).map
    fun ws => sampleVariance ws * annualizationFactorSq r

/-- Modelled from the spec: the volatility builder with the spec's
annualization factor. -/
def fetch_volatility_specSq (raw1h raw1d : Option RawFrame) : List ℚ :=
  match (if noneOrEmpty raw1h then raw1d else raw1h) with
  | none => []
  | some r => if isEmptyFrame r then [] else volPointsSpecSq r

/-- A frame lacking a `Close` column, its first column renamed `Close`. -/
def renameFirstToClose (r : RawFrame) : RawFrame :=
  { r with cols :=
      match r.cols with
      | [] => []
      | c :: t => ("Close", c.2) :: t }

/-! ## Concrete inputs used by witnesses and counterexamples -/

/-- A 7-row daily frame with a `Close` column and nonconstant returns. -/
def exFrameClose7 : RawFrame :=
  ⟨[0, 1, 2, 3, 4, 5, 6], [("Close", [1, 2, 1, 2, 1, 2, 1])], none⟩

/-- A 6-row daily frame whose only column is `Open` (no close price). -/
def exFrameOpen6 : RawFrame :=
  ⟨[0, 1, 2, 3, 4, 5], [("Open", [1, 2, 1, 2, 1, 2])], none⟩

/-- A 5-row daily frame with a `Close` column: exactly `window` points. -/
def exFrameClose5 : RawFrame :=
  ⟨[0, 1, 2, 3, 4], [("Close", [1, 2, 1, 2, 1])], none⟩

/-- A 6-row daily frame with a `Close` column: `window + 1` points. -/
def exFrameClose6 : RawFrame :=
  ⟨[0, 1, 2, 3, 4, 5], [("Close", [1, 2, 1, 2, 1, 2])], none⟩

/-- A news item with a link, for witnesses. -/
def exItemA : NewsItem :=
  ⟨"bbc", "Gold rises", "bullion up", some "http://a", ⟨100, some 0⟩, "gold", "Positive"⟩

/-- A news item without a link, for witnesses. -/
def exItemNoLink : NewsItem :=
  ⟨"bbc", "stray", "", none, ⟨50, some 0⟩, "general", "Neutral"⟩

/-- A date parser that always fails, for witnesses. -/
def exFailParse : String → Except String PyDatetime :=
  fun _ => .error "ParserError"

/-- A fixed UTC now, for witnesses. -/
def exNow : PyDatetime := ⟨1000, some 0⟩

/-- A GeoJSON response whose single feature's title would match keywords. -/
def exJsonResponse : HttpResponse :=
  { status := 200
    contentType := "application/json"
    jsonData := .ok ⟨some [⟨some ⟨some "M 4.5 - gold coast", some "near fed",
      some "http://q", some 1700000000000⟩⟩]⟩
    xmlItems := .error "not xml" }

/-! ## Substring lemmas -/

theorem chPre_iff : ∀ (n h : List Char), chPre n h = true ↔ ∃ t, h = n ++ t
  | [], h => by simp [chPre]
  | _ :: _, [] => by simp [chPre]
  | a :: n, b :: h => by
    simp only [chPre, Bool.and_eq_true, beq_iff_eq, chPre_iff n h]
    constructor
    · rintro ⟨rfl, t, rfl⟩
      exact ⟨t, rfl⟩
    · rintro ⟨t, ht⟩
      rw [List.cons_append] at ht
      injection ht with h1 h2
      exact ⟨h1.symm, t, h2⟩

theorem strInAux_iff :
    ∀ (n h : List Char), strInAux n h = true ↔ ∃ pre post, h = pre ++ n ++ post
  | n, [] => by
    simp only [strInAux, chPre_iff]
    constructor
    · rintro ⟨t, ht⟩
      exact ⟨[], t, ht⟩
    · rintro ⟨pre, post, hp⟩
      have h1 := List.append_eq_nil.mp hp.symm
      have h2 := List.append_eq_nil.mp h1.1
      exact ⟨[], by simp [h2.2]⟩
  | n, c :: t => by
    simp only [strInAux, Bool.or_eq_true, chPre_iff, strInAux_iff n t]
    constructor
    · rintro (⟨s, hs⟩ | ⟨pre, post, hp⟩)
      · exact ⟨[], s, hs⟩
      · exact ⟨c :: pre, post, by simp [hp]⟩
    · rintro ⟨pre, post, hp⟩
      cases pre with
      | nil => exact Or.inl ⟨post, by simpa using hp⟩
      | cons d pre =>
        rw [List.cons_append, List.cons_append] at hp
        injection hp with h1 h2
        exact Or.inr ⟨pre, post, by simp [h2]⟩

/-- `strIn` decides substring occurrence. -/
theorem strIn_iff (needle hay : String) : strIn needle hay = true ↔ Occurs needle hay :=
  strInAux_iff needle.data hay.data

theorem any_strIn_iff (ws : List String) (t : String) :
    (ws.any fun w => strIn w t) = true ↔ ∃ w ∈ ws, Occurs w t := by
  simp [List.any_eq_true, strIn_iff]

theorem not_occurs_of_strIn_false {w t : String} (h : strIn w t = false) :
    ¬ Occurs w t := fun hc => by
  rw [← strIn_iff, h] at hc
  exact Bool.false_ne_true hc

theorem no_keyword_hit_of_all_strIn_false {t : String}
    (h : (impact_keywords.all fun kw => kw.2.all fun w => !(strIn w t)) = true) :
    ∀ kw ∈ impact_keywords, ∀ w ∈ kw.2, ¬ Occurs w t := by
  intro kw hkw w hw
  have := (List.all_eq_true.mp ((List.all_eq_true.mp h) kw hkw)) w hw
  exact not_occurs_of_strIn_false (by simpa using this)

/-! ## Claim theorems: text classification -/

/-- C5: for every (title, body) pair, `analyze_sentiment` returns
`"Positive"` iff some listed positive word occurs as a substring of the
lowercased concatenation and no listed negative word does, `"Negative"` iff
a negative word occurs and no positive word does, `"Mixed"` iff both occur,
and `"Neutral"` iff neither occurs. -/
theorem sentiment_classification (title description : String) :
    (analyze_sentiment title description = "Positive" ↔
      (∃ w ∈ positive_words, Occurs w (loweredText title description)) ∧
      ¬ (∃ w ∈ negative_words, Occurs w (loweredText title description))) ∧
    (analyze_sentiment title description = "Negative" ↔
      (∃ w ∈ negative_words, Occurs w (loweredText title description)) ∧
      ¬ (∃ w ∈ positive_words, Occurs w (loweredText title description))) ∧
    (analyze_sentiment title description = "Mixed" ↔
      (∃ w ∈ positive_words, Occurs w (loweredText title description)) ∧
      (∃ w ∈ negative_words, Occurs w (loweredText title description))) ∧
    (analyze_sentiment title description = "Neutral" ↔
      ¬ (∃ w ∈ positive_words, Occurs w (loweredText title description)) ∧
      ¬ (∃ w ∈ negative_words, Occurs w (loweredText title description))) := by
  have hp := any_strIn_iff positive_words (loweredText title description)
  have hn := any_strIn_iff negative_words (loweredText title description)
  have hval : analyze_sentiment title description =
      (if (positive_words.any fun w => strIn w (loweredText title description)) &&
            !(negative_words.any fun w => strIn w (loweredText title description)) then
          "Positive"
        else if (negative_words.any fun w => strIn w (loweredText title description)) &&
            !(positive_words.any fun w => strIn w (loweredText title description)) then
          "Negative"
        else if (positive_words.any fun w => strIn w (loweredText title description)) &&
            (negative_words.any fun w => strIn w (loweredText title description)) then
          "Mixed"
        else "Neutral") := rfl
  rcases hbp : (positive_words.any fun w => strIn w (loweredText title description)) with _ | _ <;>
    rcases hbn : (negative_words.any fun w => strIn w (loweredText title description)) with _ | _ <;>
    rw [hbp, hbn] at hval <;> rw [hbp] at hp <;> rw [hbn] at hn <;>
    simp only [Bool.false_eq_true, false_iff, true_iff] at hp hn <;>
    simp only [Bool.not_false, Bool.not_true, Bool.and_true, Bool.and_false,
      Bool.true_and, Bool.false_and, if_true, if_false] at hval <;>
    rw [hval] <;>
    refine ⟨?_, ?_, ?_, ?_⟩ <;>
    simp [hp, hn]

/-- C6: any text whose lowered concatenation contains `"fed"` or
`"interest rate"` gets the `rates` tag, and text matching no category
keyword is classified exactly as the sentinel `"general"`. -/
theorem impact_rates_and_general (title description : String) :
    ((Occurs "fed" (loweredText title description) ∨
        Occurs "interest rate" (loweredText title description)) →
      "rates" ∈ analyze_impact_tags title description) ∧
    ((∀ kw ∈ impact_keywords, ∀ w ∈ kw.2, ¬ Occurs w (loweredText title description)) →
      analyze_impact title description = "general") := by
  constructor
  · intro hocc
    have hmem : ("rates", ["interest rate", "rate hike", "fed", "federal reserve"])
        ∈ impact_keywords := by simp [impact_keywords]
    have hany : (["interest rate", "rate hike", "fed", "federal reserve"].any
        fun w => strIn w (loweredText title description)) = true := by
      rcases hocc with h | h
      · exact List.any_eq_true.mpr ⟨"fed", by simp, (strIn_iff _ _).mpr h⟩
      · exact List.any_eq_true.mpr ⟨"interest rate", by simp, (strIn_iff _ _).mpr h⟩
    unfold analyze_impact_tags
    exact List.mem_filterMap.mpr ⟨_, hmem, by simp [hany]⟩
  · intro hno
    have htags : analyze_impact_tags title description = [] := by
      unfold analyze_impact_tags
      refine List.filterMap_eq_nil_iff.mpr fun kw hkw => ?_
      have : (kw.2.any fun w => strIn w (loweredText title description)) = false := by
        refine List.any_eq_false.mpr fun w hw => ?_
        have := hno kw hkw w hw
        rcases hb : strIn w (loweredText title description) with _ | _
        · simp
        · exact absurd ((strIn_iff _ _).mp hb) this
      simp [this]
    unfold analyze_impact
    simp [htags]

/-- Witness for C6 at concrete inputs. -/
theorem impact_rates_and_general_witness :
    "rates" ∈ analyze_impact_tags "Fed meets" "" ∧
      analyze_impact "hello" "" = "general" :=
  ⟨(impact_rates_and_general "Fed meets" "").1
      (Or.inl ((strIn_iff "fed" (loweredText "Fed meets" "")).mp (by decide))),
    (impact_rates_and_general "hello" "").2
      (no_keyword_hit_of_all_strIn_false (by decide))⟩

/-! ## Claim theorems: date normalisation -/

/-- C9: `parse_pub_date` is total for every string input (the embedding is
a total Lean function, mirroring the `try`/`except Exception` wrapper);
given a UTC `now`, its result always carries a timezone, a parsed but
timezone-naive datetime is stamped UTC, a parse failure falls back to
`now`, and an already-aware parse is returned unchanged. -/
theorem parse_pub_date_total_aware (ext : String → Except String PyDatetime)
    (now : PyDatetime) (s : String) (hnow : now.tzinfo = some 0) :
    (parse_pub_date ext now s).tzinfo.isSome = true ∧
    (∀ e, ext s = .error e → parse_pub_date ext now s = now) ∧
    (∀ dt, ext s = .ok dt → dt.tzinfo = none →
      parse_pub_date ext now s = { dt with tzinfo := some 0 }) ∧
    (∀ dt z, ext s = .ok dt → dt.tzinfo = some z → parse_pub_date ext now s = dt) := by
  refine ⟨?_, ?_, ?_, ?_⟩
  · cases hx : ext s with
    | error e => simp [parse_pub_date, hx, hnow]
    | ok dt =>
      cases hdt : dt.tzinfo with
      | none => simp [parse_pub_date, hx, hdt]
      | some z => simp [parse_pub_date, hx, hdt]
  · intro e h
    simp [parse_pub_date, h]
  · intro dt h hdt
    simp [parse_pub_date, h, hdt]
  · intro dt z h hdt
    simp [parse_pub_date, h, hdt]

/-- Witness for C9: a failing parser on garbage and on the empty string. -/
theorem parse_pub_date_total_aware_witness :
    (parse_pub_date exFailParse exNow "garbage !!").tzinfo.isSome = true ∧
      parse_pub_date exFailParse exNow "" = exNow :=
  ⟨(parse_pub_date_total_aware exFailParse exNow "garbage !!" rfl).1,
    (parse_pub_date_total_aware exFailParse exNow "" rfl).2.1 "ParserError" rfl⟩

/-! ## Claim theorems: feed fetcher -/

/-- C7: `_fetch_feed` never raises — every failure mode (network error,
HTTP error status from `raise_for_status`, JSON parse error, XML parse
error) makes the call return the empty list. -/
theorem fetch_feed_never_raises (ext : String → Except String PyDatetime)
    (now : PyDatetime) (feed_name url : String) (resp : Except String HttpResponse) :
    (∀ e, resp = .error e → fetch_feed ext now feed_name url resp = []) ∧
    (∀ r, resp = .ok r → 400 ≤ r.status → fetch_feed ext now feed_name url resp = []) ∧
    (∀ r e, resp = .ok r → r.status < 400 → isJsonFeed r url = true →
      r.jsonData = .error e → fetch_feed ext now feed_name url resp = []) ∧
    (∀ r e, resp = .ok r → r.status < 400 → isJsonFeed r url = false →
      r.xmlItems = .error e → fetch_feed ext now feed_name url resp = []) := by
  refine ⟨?_, ?_, ?_, ?_⟩
  · rintro e rfl
    rfl
  · rintro r rfl h
    simp [fetch_feed, fetch_feed_attempt, h]
  · rintro r e rfl hlt hjson herr
    have hge : ¬ 400 ≤ r.status := by omega
    simp [fetch_feed, fetch_feed_attempt, hge, hjson, herr]
  · rintro r e rfl hlt hjson herr
    have hge : ¬ 400 ≤ r.status := by omega
    simp [fetch_feed, fetch_feed_attempt, hge, hjson, herr]

/-- Witness for C7: a network failure and an HTTP 404. -/
theorem fetch_feed_never_raises_witness :
    fetch_feed exFailParse exNow "bbc" "http://x" (.error "timeout") = [] ∧
      fetch_feed exFailParse exNow "usgs" "http://x.geojson"
        (.ok ⟨404, "", .error "never parsed", .error "never parsed"⟩) = [] :=
  ⟨(fetch_feed_never_raises exFailParse exNow "bbc" "http://x" (.error "timeout")).1
      "timeout" rfl,
    (fetch_feed_never_raises exFailParse exNow "usgs" "http://x.geojson"
        (.ok ⟨404, "", .error "never parsed", .error "never parsed"⟩)).2.1
      ⟨404, "", .error "never parsed", .error "never parsed"⟩ rfl (by decide)⟩

/-- C8: on a JSON response carrying a `features` array, `_fetch_feed` maps
each feature's properties verbatim — title, place, url, epoch-millisecond
time — into a news item whose impact is the sentinel `"general"` and whose
sentiment is `"Neutral"`; the keyword classifiers are never consulted. -/
theorem fetch_feed_json_features (ext : String → Except String PyDatetime)
    (now : PyDatetime) (feed_name url : String) (resp : Except String HttpResponse)
    (r : HttpResponse) (data : UsgsData) (fs : List UsgsFeature)
    (hresp : resp = .ok r) (hst : r.status < 400) (hjson : isJsonFeed r url = true)
    (hdata : r.jsonData = .ok data) (hfs : data.features = some fs) :
    fetch_feed ext now feed_name url resp = fs.map (featureToItem feed_name) ∧
    (∀ it ∈ fetch_feed ext now feed_name url resp,
      it.impact = "general" ∧ it.sentiment = "Neutral") ∧
    (∀ f : UsgsFeature, featureToItem feed_name f =
      { feed := feed_name
        title := (f.props.getD emptyProps).title.getD ""
        description := (f.props.getD emptyProps).place.getD ""
        link := some ((f.props.getD emptyProps).url.getD "")
        pub := { stamp := (f.props.getD emptyProps).time.getD 0 / 1000, tzinfo := some 0 }
        impact := "general"
        sentiment := "Neutral" }) := by
  subst hresp
  have hge : ¬ 400 ≤ r.status := by omega
  have hmain : fetch_feed ext now feed_name url (.ok r) = fs.map (featureToItem feed_name) := by
    simp [fetch_feed, fetch_feed_attempt, hge, hjson, hdata, hfs]
  refine ⟨hmain, ?_, fun f => rfl⟩
  intro it hit
  rw [hmain] at hit
  rcases List.mem_map.mp hit with ⟨f, _, rfl⟩
  exact ⟨rfl, rfl⟩

unseal Rat.inv Rat.mul Rat.add Rat.sub in
/-- Witness for C8: a GeoJSON response whose feature text mentions gold and
fed keywords, yet is classified `"general"`/`"Neutral"`. -/
theorem fetch_feed_json_features_witness :
    fetch_feed exFailParse exNow "usgs" "http://q.geojson" (.ok exJsonResponse) =
      [⟨"usgs", "M 4.5 - gold coast", "near fed", some "http://q",
        ⟨1700000000, some 0⟩, "general", "Neutral"⟩] := by
  have h := fetch_feed_json_features exFailParse exNow "usgs" "http://q.geojson"
    (.ok exJsonResponse) exJsonResponse
    ⟨some [⟨some ⟨some "M 4.5 - gold coast", some "near fed", some "http://q",
      some 1700000000000⟩⟩]⟩
    [⟨some ⟨some "M 4.5 - gold coast", some "near fed", some "http://q",
      some 1700000000000⟩⟩]
    rfl (by decide) (by decide) rfl rfl
  rw [h.1]
  decide

/-! ## Dedup invariant lemmas -/

theorem map_fst_overwrite (k : String) (v : NewsItem) :
    ∀ m : List (String × NewsItem),
      (m.map fun p => if p.1 == k then (k, v) else p).map Prod.fst = m.map Prod.fst
  | [] => rfl
  | p :: m => by
    rw [List.map_cons, List.map_cons, List.map_cons, map_fst_overwrite k v m]
    congr 1
    by_cases h : p.1 == k
    · rw [if_pos h]
      exact (beq_iff_eq.mp h).symm
    · rw [if_neg h]

theorem linkKey_some {it : NewsItem} {x : String} (h : linkKey it = some x) :
    it.link = some x ∧ x ≠ "" := by
  unfold linkKey at h
  cases hl : it.link with
  | none => rw [hl] at h; simp at h
  | some s =>
    rw [hl] at h
    by_cases hs : s = ""
    · simp [hs] at h
    · simp only [hs, if_false, Option.some.injEq] at h
      subst h
      exact ⟨rfl, hs⟩

theorem goodDict_insert {m : List (String × NewsItem)} {k : String} {v : NewsItem}
    (hg : GoodDict m) (hv : v.link = some k) (hk : k ≠ "") :
    GoodDict (dictInsert m k v) := by
  unfold dictInsert
  by_cases h : (m.any fun p => p.1 == k) = true
  · rw [if_pos h]
    refine ⟨?_, ?_⟩
    · rw [map_fst_overwrite]
      exact hg.1
    · intro p hp
      rcases List.mem_map.mp hp with ⟨q, hq, rfl⟩
      by_cases hqk : q.1 == k
      · simp only [hqk, if_true]
        exact ⟨hv, hk⟩
      · simp only [hqk, Bool.false_eq_true, if_false]
        exact hg.2 q hq
  · rw [if_neg h]
    have hnk : k ∉ m.map Prod.fst := by
      intro hmem
      rcases List.mem_map.mp hmem with ⟨p, hp, hpk⟩
      exact h (List.any_eq_true.mpr ⟨p, hp, by simp [hpk]⟩)
    refine ⟨?_, ?_⟩
    · rw [List.map_append]
      rw [List.nodup_append]
      exact ⟨hg.1, by simp, by simpa [List.disjoint_singleton] using hnk⟩
    · intro p hp
      rcases List.mem_append.mp hp with hp | hp
      · exact hg.2 p hp
      · have : p = (k, v) := by simpa using hp
        subst this
        exact ⟨hv, hk⟩

theorem goodDict_foldl (l : List NewsItem) :
    ∀ m, GoodDict m →
      GoodDict (l.foldl
        (fun m it =>
          match linkKey it with
          | some x => dictInsert m x it
          | none => m)
        m) := by
  induction l with
  | nil => intro m hm; exact hm
  | cons it l ih =>
    intro m hm
    rw [List.foldl_cons]
    cases hlk : linkKey it with
    | none => exact ih m hm
    | some x => exact ih _ (goodDict_insert hm (linkKey_some hlk).1 (linkKey_some hlk).2)

theorem goodDict_dedupDict (items : List NewsItem) : GoodDict (dedupDict items) :=
  goodDict_foldl items [] ⟨List.nodup_nil, by simp⟩

theorem length_dictInsert (m : List (String × NewsItem)) (k : String) (v : NewsItem) :
    (dictInsert m k v).length ≤ m.length + 1 := by
  unfold dictInsert
  split <;> simp

theorem length_foldl_dedup (l : List NewsItem) :
    ∀ m, (l.foldl
        (fun m it =>
          match linkKey it with
          | some x => dictInsert m x it
          | none => m)
        m).length ≤ m.length + l.length := by
  induction l with
  | nil => intro m; simp
  | cons it l ih =>
    intro m
    rw [List.foldl_cons]
    cases hlk : linkKey it with
    | none =>
      calc _ ≤ m.length + l.length := ih m
        _ ≤ m.length + (it :: l).length := by simp [List.length_cons]
    | some x =>
      calc _ ≤ (dictInsert m x it).length + l.length := ih _
        _ ≤ m.length + (it :: l).length := by
              have := length_dictInsert m x it
              simp only [List.length_cons]
              omega

/-! ## Claim theorems: dedup and ordering -/

/-- C4: the link-keyed merge yields pairwise-distinct links, its size is at
most the raw item count, and the final downstream sequence is ordered
descending by publication instant. -/
theorem dedup_and_sort_spec (items : List NewsItem) :
    ((finalNews items).Pairwise fun a b => a.link ≠ b.link) ∧
    (finalNews items).length ≤ items.length ∧
    ((finalNews items).Pairwise fun a b => b.pub.stamp ≤ a.pub.stamp) := by
  have hg := goodDict_dedupDict items
  refine ⟨?_, ?_, ?_⟩
  · have hperm : List.Perm (finalNews items) (dedupValues items) :=
      List.mergeSort_perm _ _
    have hpw : (dedupValues items).Pairwise fun a b => a.link ≠ b.link := by
      unfold dedupValues
      rw [List.pairwise_map]
      have hk := hg.1
      rw [List.Nodup, List.pairwise_map] at hk
      refine hk.imp_of_mem ?_
      intro p q hp hq hne
      rw [(hg.2 p hp).1, (hg.2 q hq).1]
      simp [hne]
    exact (List.Perm.pairwise_iff (fun h => Ne.symm h) hperm).mpr hpw
  · have h1 : (finalNews items).length = (dedupDict items).length := by
      simp [finalNews, dedupValues]
    have h3 : (dedupDict items).length ≤
        ([] : List (String × NewsItem)).length + items.length :=
      length_foldl_dedup items []
    simp only [List.length_nil, Nat.zero_add] at h3
    omega
  · have hs := @List.sorted_mergeSort NewsItem newsLe
      (fun a b c hab hbc => by
        simp only [newsLe, decide_eq_true_eq] at hab hbc ⊢
        exact le_trans hbc hab)
      (fun a b => by
        simp only [newsLe, Bool.or_eq_true, decide_eq_true_eq]
        exact le_total b.pub.stamp a.pub.stamp)
      (dedupValues items)
    exact hs.imp fun h => of_decide_eq_true h

/-- C10: records whose link is absent or empty are filtered out by the
dict comprehension's truthiness guard: no such record survives into the
final sorted sequence. -/
theorem dedup_drops_linkless (items : List NewsItem) :
    ∀ it ∈ finalNews items, it.link ≠ none ∧ it.link ≠ some "" := by
  intro it hit
  have hmem : it ∈ dedupValues items := by
    unfold finalNews at hit
    exact List.mem_mergeSort.mp hit
  unfold dedupValues at hmem
  rcases List.mem_map.mp hmem with ⟨p, hp, rfl⟩
  have h := (goodDict_dedupDict items).2 p hp
  rw [h.1]
  exact ⟨by simp, by simpa using h.2⟩

/-- Witness for C10: a linkless record is dropped while a linked one
survives and satisfies the conclusion. -/
theorem dedup_drops_linkless_witness :
    exItemA ∈ finalNews [exItemNoLink, exItemA] ∧
      exItemA.link ≠ none ∧ exItemA.link ≠ some "" := by
  have hmem : exItemA ∈ finalNews [exItemNoLink, exItemA] := by
    show exItemA ∈ List.mergeSort (dedupValues [exItemNoLink, exItemA]) newsLe
    exact List.mem_mergeSort.mpr (by decide)
  exact ⟨hmem, dedup_drops_linkless [exItemNoLink, exItemA] exItemA hmem⟩

/-! ## Volatility lemmas -/

theorem priceColumn_length {r : RawFrame} (hwf : WF r) :
    (priceColumn r).length = r.index.length := by
  unfold priceColumn
  cases hf : r.cols.find? fun c => c.1 == "Close" with
  | some c => exact hwf.2 c (List.mem_of_find?_eq_some hf)
  | none =>
    cases hc : r.cols with
    | nil => exact absurd hc hwf.1
    | cons c t => exact hwf.2 c (by rw [hc]; exact List.mem_cons_self c t)

theorem sortedClose_length {r : RawFrame} (hwf : WF r) :
    (sortedClose r).length = r.index.length := by
  unfold sortedClose
  rw [List.length_map, List.length_mergeSort, List.length_zip,
    priceColumn_length hwf, Nat.min_self]

theorem pct_change_length (close : List ℚ) :
    (pct_change close).length = close.length - 1 := by
  unfold pct_change
  rw [List.length_map, List.length_zip, List.length_tail]
  omega

theorem windowsOf_length (w : ℕ) (xs : List ℚ) :
    (windowsOf w xs).length = xs.length + 1 - w := by
  unfold windowsOf
  rw [List.length_map, List.length_range]

theorem windowsOf_getElem (w : ℕ) (xs : List ℚ) (k : ℕ) (h : k < (windowsOf w xs).length) :
    (windowsOf w xs)[k] = (xs.drop k).take w := by
  unfold windowsOf at h ⊢
  rw [List.getElem_map, List.getElem_range]

theorem isEmptyFrame_false {r : RawFrame} (hi : r.index ≠ []) (hc : r.cols ≠ []) :
    isEmptyFrame r = false := by
  unfold isEmptyFrame
  have h1 : r.index.isEmpty = false := by
    cases hI : r.index with
    | nil => exact absurd hI hi
    | cons a l => rfl
  have h2 : r.cols.isEmpty = false := by
    cases hC : r.cols with
    | nil => exact absurd hC hc
    | cons a l => rfl
  rw [h1, h2]
  rfl

theorem fetch_volatilitySq_of_frame {r : RawFrame} (d : Option RawFrame)
    (hemp : isEmptyFrame r = false) :
    fetch_volatilitySq (some r) d = volPointsSq r := by
  simp [fetch_volatilitySq, noneOrEmpty, hemp]

theorem volWindow_ge_five (r : RawFrame) : 5 ≤ volWindow r := by
  unfold volWindow
  split <;> omega

theorem volPointsSq_get (r : RawFrame) (k : ℕ) (h : k < (volPointsSq r).length) :
    (volPointsSq r).get ⟨k, h⟩ =
      sampleVariance (((pct_change (sortedClose r)).drop k).take (volWindow r)) *
        (volWindow r : ℚ) := by
  by_cases h3 : (sortedClose r).length < 3
  · exfalso
    unfold volPointsSq at h
    rw [if_pos h3] at h
    simp at h
  · have he : volPointsSq r =
        List.map (fun ws => sampleVariance ws * (volWindow r : ℚ))
          (windowsOf (volWindow r) (pct_change (sortedClose r))) := by
      unfold volPointsSq
      rw [if_neg h3]
    rw [List.get_of_eq he ⟨k, h⟩, List.get_eq_getElem, List.getElem_map,
      windowsOf_getElem]

/-! ## Claim theorems: volatility -/

unseal Rat.inv Rat.mul Rat.add Rat.sub List.merge List.mergeSort in
/-- C1 counterexample: on a concrete daily frame, the volatility the code
computes (rolling sample std times √window, here √5 — shown squared) is not
the sample std times the spec's √252 annualization factor. -/
theorem volatility_factor_counterexample :
    fetch_volatilitySq (some exFrameClose7) none ≠
      fetch_volatility_specSq (some exFrameClose7) none := by
  decide

/-- C1 (amended): every volatility point the builder emits equals the
sample standard deviation of the trailing `window` returns ending at that
point multiplied by √window (stated squared: sample variance times
`window`), where `window` is 24 for hourly bars and 5 for daily bars — not
√252 / √(252·24). -/
theorem volatility_points_formula (r : RawFrame) (d : Option RawFrame) (k : ℕ)
    (hemp : isEmptyFrame r = false)
    (h : k < (fetch_volatilitySq (some r) d).length) :
    (fetch_volatilitySq (some r) d).get ⟨k, h⟩ =
      sampleVariance (((pct_change (sortedClose r)).drop k).take (volWindow r)) *
        (volWindow r : ℚ) := by
  have hfe : fetch_volatilitySq (some r) d = volPointsSq r :=
    fetch_volatilitySq_of_frame d hemp
  rw [List.get_of_eq hfe ⟨k, h⟩, volPointsSq_get]

unseal Rat.inv Rat.mul Rat.add Rat.sub List.merge List.mergeSort in
/-- Witness for the amended C1 at a concrete daily frame. -/
theorem volatility_points_formula_witness :
    (fetch_volatilitySq (some exFrameClose7) none).get ⟨0, by decide⟩ =
      sampleVariance (((pct_change (sortedClose exFrameClose7)).drop 0).take
        (volWindow exFrameClose7)) * (volWindow exFrameClose7 : ℚ) :=
  volatility_points_formula exFrameClose7 none 0 (by decide) (by decide)

unseal Rat.inv Rat.mul Rat.add Rat.sub List.merge List.mergeSort in
/-- C2 counterexample: a non-empty download lacking any close-price column
is not mapped to the empty series — the builder computes on the first
column instead of returning empty. -/
theorem missing_close_counterexample :
    fetch_volatilitySq (some exFrameOpen6) none ≠ [] := by
  decide

/-- C2 (amended): an absent or empty download yields the empty series, but
a non-empty frame lacking a `Close` column does not: the builder falls back
to the frame's first column, producing the same output as if that column
were named `Close`. -/
theorem empty_or_missing_close (h d : Option RawFrame) (r : RawFrame) :
    (noneOrEmpty h = true → noneOrEmpty d = true → fetch_volatilitySq h d = []) ∧
    ((r.cols.find? fun c => c.1 == "Close") = none →
      fetch_volatilitySq (some r) d = fetch_volatilitySq (some (renameFirstToClose r)) d) := by
  constructor
  · intro h1 h2
    unfold fetch_volatilitySq
    rw [if_pos h1]
    cases d with
    | none => rfl
    | some rd =>
      have : isEmptyFrame rd = true := h2
      simp [this]
  · intro hf
    have hpc : priceColumn (renameFirstToClose r) = priceColumn r := by
      cases hc : r.cols with
      | nil =>
        unfold priceColumn renameFirstToClose
        rw [hc]
      | cons c t =>
        have hrc : (renameFirstToClose r).cols = ("Close", c.2) :: t := by
          simp [renameFirstToClose, hc]
        have hf2 : List.find? (fun x => x.1 == "Close") (c :: t) = none := by
          rw [← hc]
          exact hf
        have hfind : List.find? (fun x => x.1 == "Close") (("Close", c.2) :: t) =
            some ("Close", c.2) := List.find?_cons_of_pos _ (by simp)
        unfold priceColumn
        rw [hrc, hc, hfind, hf2]
    have hie : isEmptyFrame (renameFirstToClose r) = isEmptyFrame r := by
      unfold isEmptyFrame renameFirstToClose
      cases r.cols <;> rfl
    have hsc : sortedClose (renameFirstToClose r) = sortedClose r := by
      unfold sortedClose
      rw [hpc, show (renameFirstToClose r).index = r.index from rfl]
    have hvp : volPointsSq (renameFirstToClose r) = volPointsSq r := by
      unfold volPointsSq
      rw [hsc, show volWindow (renameFirstToClose r) = volWindow r from rfl]
    cases he : isEmptyFrame r with
    | true => simp [fetch_volatilitySq, noneOrEmpty, he, hie]
    | false => simp [fetch_volatilitySq, noneOrEmpty, he, hie, hvp]

/-- Witness for the amended C2: the all-empty case and the concrete
`Open`-only frame. -/
theorem empty_or_missing_close_witness :
    fetch_volatilitySq none none = [] ∧
      fetch_volatilitySq (some exFrameOpen6) none =
        fetch_volatilitySq (some (renameFirstToClose exFrameOpen6)) none :=
  ⟨(empty_or_missing_close none none exFrameOpen6).1 rfl rfl,
    (empty_or_missing_close none none exFrameOpen6).2 (by decide)⟩

/-- C3: a volatility point is produced only once at least `window + 1`
observations are available: with between 1 and `window` price points the
builder emits an empty series (in particular at exactly `window` points),
and with `window + 1` points it emits exactly one volatility point — rows
before the window fills are dropped, not null-filled (the output length
counts only fully-windowed points). -/
theorem volatility_window_boundary (r : RawFrame) (d : Option RawFrame) (hwf : WF r) :
    (1 ≤ r.index.length → r.index.length ≤ volWindow r →
      fetch_volatilitySq (some r) d = []) ∧
    (r.index.length = volWindow r + 1 →
      (fetch_volatilitySq (some r) d).length = 1) := by
  have hw5 := volWindow_ge_five r
  constructor
  · intro h1 hn
    have hidx : r.index ≠ [] := by
      intro h0
      rw [h0] at h1
      simp at h1
    have hemp := isEmptyFrame_false hidx hwf.1
    rw [fetch_volatilitySq_of_frame d hemp]
    have hlen := sortedClose_length hwf
    unfold volPointsSq
    by_cases h3 : (sortedClose r).length < 3
    · rw [if_pos h3]
    · rw [if_neg h3]
      have hz : (windowsOf (volWindow r) (pct_change (sortedClose r))).length = 0 := by
        rw [windowsOf_length, pct_change_length, hlen]
        omega
      rw [List.length_eq_zero.mp hz]
      rfl
  · intro hn
    have hidx : r.index ≠ [] := by
      intro h0
      rw [h0] at hn
      simp only [List.length_nil] at hn
      omega
    have hemp := isEmptyFrame_false hidx hwf.1
    rw [fetch_volatilitySq_of_frame d hemp]
    have hlen := sortedClose_length hwf
    unfold volPointsSq
    rw [if_neg (by omega : ¬ (sortedClose r).length < 3)]
    rw [List.length_map, windowsOf_length, pct_change_length, hlen, hn]
    omega

/-- Witness for C3: 5 daily points give no volatility, 6 give one. -/
theorem volatility_window_boundary_witness :
    fetch_volatilitySq (some exFrameClose5) none = [] ∧
      (fetch_volatilitySq (some exFrameClose6) none).length = 1 :=
  ⟨(volatility_window_boundary exFrameClose5 none ⟨by decide, by decide⟩).1
      (by decide) (by decide),
    (volatility_window_boundary exFrameClose6 none ⟨by decide, by decide⟩).2 (by decide)⟩
